import Mathlib

/-!
Shallow embedding of the delivery-dispatch server (src/app.py) for
verification of its specification.

The persistent store is modelled as an explicit state: the list of
`DeliveryBoy` rows (in storage order, as returned by unordered queries)
and the append-only list of `CallLog` rows.  The Twilio webhook handler
`allocate_delivery`, the authenticated `update_status` endpoint, the
query helper `find_available_worker` and the identifier generator
`generate_order_id` are translated directly from the source.  External
effects are passed explicitly: the current UTC time and the random UUID
string are inputs to `generate_order_id`; the Twilio configuration flag
and configured caller-id number are inputs to `allocate_delivery`; the
single fallible operation, `db.session.commit`, is represented by a
boolean input `commitOk` (a failing commit raises, leaving the store
unchanged, and control transfers to the except handler).
-/

namespace DeliveryServer

/-- Worker availability, `db.Enum('free', 'occupied')` on the
`delivery_boys` table (src/app.py line 48). -/
inductive WorkerStatus where
  | free
  | occupied
deriving DecidableEq

/-- Call outcome, `db.Enum('connected', 'busy', 'no_answer', 'failed')`
on the `call_logs` table (src/app.py line 81). -/
inductive CallStatus where
  | connected
  | busy
  | no_answer
  | failed
deriving DecidableEq

/-- A row of the `delivery_boys` table (src/app.py lines 40-53).  Columns
not read or written by the modelled operations (password hash, email,
deliveries_today, timestamps) are omitted. -/
structure DeliveryBoy where
  id : Nat
  name : String
  phone : String
  status : WorkerStatus
  current_order_id : Option String
  is_active : Bool
deriving DecidableEq

/-- A row of the `call_logs` table (src/app.py lines 73-85).  Columns not
read or written by the modelled operations (autoincrement id, call_time,
notes) are omitted; `call_status` defaults to connected and
`call_duration` to 0 as in the column defaults, and `allocate_delivery`
never overrides those defaults. -/
structure CallLog where
  delivery_boy_id : Nat
  client_number : String
  order_id : String
  call_status : CallStatus
  call_duration : Nat
deriving DecidableEq

/-- The persistent store: `delivery_boys` rows in storage order and the
append-only `call_logs` rows. -/
structure DBState where
  workers : List DeliveryBoy
  call_logs : List CallLog
deriving DecidableEq

/-- The filter of the query
`DeliveryBoy.query.filter_by(status='free', is_active=True)`
(src/app.py lines 417-420). -/
def availPred (w : DeliveryBoy) : Bool :=
  w.status == .free && w.is_active

/-- The query `DeliveryBoy.query.filter_by(status='free',
is_active=True).first()` (src/app.py lines 417-420): the first row in
storage order satisfying the filter, or none. -/
def find_available_worker (ws : List DeliveryBoy) : Option DeliveryBoy :=
  ws.find? availPred

/-- Number of free, active workers in the pool. -/
def freeCount (ws : List DeliveryBoy) : Nat :=
  ws.countP availPred

/-- A TwiML verb of the `VoiceResponse` built by the handlers:
`response.say(text)` or `response.dial(number, caller_id=...)`. -/
inductive TwimlVerb where
  | say (text : String)
  | dial (number : String) (callerId : String)
deriving DecidableEq

/-- Body of an HTTP response returned by `allocate_delivery`: either a
`jsonify(\x7b'error': msg\x7d)` JSON document or a TwiML XML document
(returned with Content-Type application/xml). -/
inductive HttpBody where
  | json (error : String)
  | xml (verbs : List TwimlVerb)
deriving DecidableEq

/-- An HTTP response of `allocate_delivery`: a body plus status code. -/
structure HttpResponse where
  body : HttpBody
  status : Nat
deriving DecidableEq

/-- Response for a missing or empty caller number:
`jsonify(\x7b'error': 'Caller number not provided'\x7d), 400`
(src/app.py line 414). -/
def badCallerResp : HttpResponse :=
  { body := .json "Caller number not provided", status := 400 }

/-- Response when no delivery boy is available (src/app.py lines 424-426). -/
def unavailResp : HttpResponse :=
  { body := .xml [.say "Sorry, all delivery boys are currently busy. Please try again later."],
    status := 200 }

/-- Response of the except handler (src/app.py lines 460-462). -/
def errorResp : HttpResponse :=
  { body := .xml [.say "Sorry, there was an error processing your call. Please try again later."],
    status := 200 }

/-- Success response (src/app.py lines 444-454): speak the worker name,
then either bridge the call to the worker phone with the configured
caller id, or announce that forwarding is not configured. -/
def connectResp (w : DeliveryBoy) (twilioConfigured : Bool) (twilioNumber : String) :
    HttpResponse :=
  { body := .xml ([.say ("Connecting you to delivery boy " ++ w.name)] ++
      (if twilioConfigured then [.dial w.phone twilioNumber]
       else [.say "Call forwarding is not configured. Please contact support."])),
    status := 200 }

/-- The row update the ORM flushes for the mutation
`available_delivery_boy.status = 'occupied';
available_delivery_boy.current_order_id = order_id`
(src/app.py lines 430-431): an UPDATE keyed on the primary key of the
selected row. -/
def assignWorker (bid : Nat) (order : String) (w : DeliveryBoy) : DeliveryBoy :=
  if w.id == bid then { w with status := .occupied, current_order_id := some order } else w

/-- The single `db.session.commit()` of the success path (src/app.py
lines 430-441): persist the worker mutation and insert the new
`CallLog` row in one commit. -/
def commitAllocation (st : DBState) (w : DeliveryBoy) (caller order : String) : DBState :=
  { workers := st.workers.map (assignWorker w.id order),
    call_logs := st.call_logs ++
      [{ delivery_boy_id := w.id, client_number := caller, order_id := order,
         call_status := .connected, call_duration := 0 }] }

/-- The Twilio webhook handler `allocate_delivery` (src/app.py lines
406-462).  `caller` is `request.form.get('From')` (none when the field
is absent); `order` is the value `generate_order_id()` returns on the
success path; `commitOk` is false when `db.session.commit()` raises, in
which case nothing is persisted and the except handler answers with the
generic error TwiML. -/
def allocate_delivery (st : DBState) (twilioConfigured : Bool) (twilioNumber : String)
    (caller : Option String) (order : String) (commitOk : Bool) :
    DBState × HttpResponse :=
  match caller with
  | none => (st, badCallerResp)
  | some c =>
    if c = "" then (st, badCallerResp)
    else
      match find_available_worker st.workers with
      | none => (st, unavailResp)
      | some w =>
        if commitOk then
          (commitAllocation st w c order, connectResp w twilioConfigured twilioNumber)
        else
          (st, errorResp)

/-- Outcome of the `update_status` endpoint, abstracting its JSON
replies: the 400 invalid-status reply, the 404 not-found reply, or the
success reply. -/
inductive UpdateResult where
  | invalidStatus
  | notFound
  | ok
deriving DecidableEq

/-- The field mutation of `update_status` (src/app.py lines 285-289):
set the status from the request string; when it is free, also clear the
current order. -/
def applyStatusUpdate (ns : String) (w : DeliveryBoy) : DeliveryBoy :=
  { w with status := if ns = "free" then .free else .occupied,
           current_order_id := if ns = "free" then none else w.current_order_id }

/-- The authenticated `/api/update-status` endpoint (src/app.py lines
270-299).  `bid` is the session delivery boy id; the row is fetched by
primary key (`DeliveryBoy.query.get`) and the flushed UPDATE is keyed on
that primary key. -/
def update_status (ws : List DeliveryBoy) (bid : Nat) (ns : String) :
    List DeliveryBoy × UpdateResult :=
  if ns = "free" ∨ ns = "occupied" then
    match ws.find? (fun w => w.id == bid) with
    | none => (ws, .notFound)
    | some _ =>
      (ws.map (fun w => if w.id == bid then applyStatusUpdate ns w else w), .ok)
  else (ws, .invalidStatus)

/-- UTC wall-clock instant at second resolution, the reading of
`datetime.now(timezone.utc)` relevant to `strftime('%Y%m%d%H%M')`. -/
structure UtcTime where
  year : Nat
  month : Nat
  day : Nat
  hour : Nat
  minute : Nat
  second : Nat
deriving DecidableEq

/-- Zero-padded decimal rendering of a field, as produced by the
strftime format directives. -/
def padNum (width n : Nat) : String :=
  let s := toString n
  String.mk (List.replicate (width - s.length) '0') ++ s

/-- The timestamp `datetime.now(timezone.utc).strftime('%Y%m%d%H%M')`
(src/app.py line 121): minute resolution, seconds dropped. -/
def strftimeYmdHM (t : UtcTime) : String :=
  padNum 4 t.year ++ padNum 2 t.month ++ padNum 2 t.day ++ padNum 2 t.hour ++ padNum 2 t.minute

/-- The Python slice `s[:4]`: the first four characters. -/
def pySlice4 (s : String) : String :=
  String.mk (s.data.take 4)

/-- The Python `str.upper()`: uppercase every character. -/
def pyUpper (s : String) : String :=
  String.mk (s.data.map Char.toUpper)

/-- `generate_order_id` (src/app.py lines 119-123).  `t` is the current
UTC time and `u` the string rendering of the fresh `uuid.uuid4()`; the
result is the tag ORD, the minute-resolution timestamp, and the
uppercased first four characters of the UUID string. -/
def generate_order_id (t : UtcTime) (u : String) : String :=
  "ORD" ++ strftimeYmdHM t ++ pyUpper (pySlice4 u)

/-- Characters that can occur among the first four characters of
`str(uuid.uuid4())`: lowercase hexadecimal digits. -/
def hexLowerChars : List Char :=
  "0123456789abcdef".data

/-- Per-worker invariant claimed by the data model: occupied implies a
present assignment identifier, free implies an absent one. -/
def workerInv (w : DeliveryBoy) : Prop :=
  (w.status = .occupied → w.current_order_id ≠ none) ∧
  (w.status = .free → w.current_order_id = none)

instance (w : DeliveryBoy) : Decidable (workerInv w) := by
  unfold workerInv; infer_instance

/-- The per-worker invariant over a whole pool. -/
def invariantOn (ws : List DeliveryBoy) : Prop :=
  ∀ w ∈ ws, workerInv w

instance (ws : List DeliveryBoy) : Decidable (invariantOn ws) := by
  unfold invariantOn; infer_instance

/-- Sequential execution of one allocation per element of `orders`
(each element is the order id minted for that request), all with the
same caller and a succeeding commit. -/
def allocRun (st : DBState) (cfg : Bool) (tn : String) (caller : String)
    (orders : List String) : DBState × List HttpResponse :=
  match orders with
  | [] => (st, [])
  | o :: rest =>
    let p := allocate_delivery st cfg tn (some caller) o true
    let q := allocRun p.1 cfg tn caller rest
    (q.1, p.2 :: q.2)

/-- The racy interleaving of two allocation requests in which both
selection queries (src/app.py lines 417-420) run before either commit
(src/app.py line 441): read one, read two, write one, write two.  Each
write commits the mutation of the worker object its own query returned. -/
def interleavedAllocPair (st : DBState) (caller o1 o2 : String) :
    DBState × Option DeliveryBoy × Option DeliveryBoy :=
  let r1 := find_available_worker st.workers
  let r2 := find_available_worker st.workers
  let st1 := match r1 with
    | some w => commitAllocation st w caller o1
    | none => st
  let st2 := match r2 with
    | some w => commitAllocation st1 w caller o2
    | none => st1
  (st2, r1, r2)

/-! ### Concrete fixtures used by witnesses and counterexamples -/

/-- A free, active worker with no current assignment. -/
def boyA : DeliveryBoy :=
  { id := 1, name := "Asha", phone := "+919000000001", status := .free,
    current_order_id := none, is_active := true }

/-- An occupied, active worker holding an assignment. -/
def boyB : DeliveryBoy :=
  { id := 2, name := "Bala", phone := "+919000000002", status := .occupied,
    current_order_id := some "ORD202510120900AAAA", is_active := true }

/-- A second free, active worker with no current assignment. -/
def boyC : DeliveryBoy :=
  { id := 3, name := "Charu", phone := "+919000000003", status := .free,
    current_order_id := none, is_active := true }

/-- Pool with two free workers and an empty call log. -/
def poolTwoFree : DBState := { workers := [boyA, boyC], call_logs := [] }

/-- Pool with one free and one occupied worker. -/
def poolMixed : DBState := { workers := [boyA, boyB], call_logs := [] }

/-- Pool whose only worker is occupied. -/
def poolBusy : DBState := { workers := [boyB], call_logs := [] }

/-! ### Helper lemmas -/

theorem map_fix_of_forall {α : Type} (f : α → α) :
    ∀ l : List α, (∀ x ∈ l, f x = x) → l.map f = l := by
  intro l h
  calc l.map f = l.map id := List.map_congr_left h
    _ = l := List.map_id l

theorem assignWorker_id (b : Nat) (o : String) (w : DeliveryBoy) :
    (assignWorker b o w).id = w.id := by
  unfold assignWorker
  split <;> rfl

theorem assignWorker_self_not_avail (o : String) (w : DeliveryBoy) :
    availPred (assignWorker w.id o w) = false := by
  simp [assignWorker, availPred]

theorem assignWorker_other (b : Nat) (o : String) (w : DeliveryBoy) (h : w.id ≠ b) :
    assignWorker b o w = w := by
  simp [assignWorker, h]

theorem map_assign_ids (ws : List DeliveryBoy) (b : Nat) (o : String) :
    (ws.map (assignWorker b o)).map (fun w => w.id) = ws.map (fun w => w.id) := by
  rw [List.map_map]
  exact List.map_congr_left (fun w _ => assignWorker_id b o w)

/-- Decomposition of a successful availability query over a pool with
unique primary keys: the pool splits as a non-available head segment,
the selected worker, and a tail, and the flushed primary-key UPDATE
rewrites exactly the selected row. -/
theorem find_assign_split (ws : List DeliveryBoy) (w : DeliveryBoy)
    (hf : ws.find? availPred = some w)
    (hn : (ws.map (fun x => x.id)).Nodup) :
    ∃ ws₁ ws₂, ws = ws₁ ++ w :: ws₂ ∧
      (∀ x ∈ ws₁, availPred x = false) ∧ availPred w = true ∧
      (∀ x ∈ ws₁ ++ ws₂, x.id ≠ w.id) ∧
      (∀ o, ws.map (assignWorker w.id o) =
        ws₁ ++ { w with status := .occupied, current_order_id := some o } :: ws₂) := by
  induction ws with
  | nil => simp [List.find?] at hf
  | cons x rest ih =>
    rw [List.map_cons, List.nodup_cons] at hn
    by_cases hp : availPred x = true
    · rw [List.find?_cons_of_pos rest hp] at hf
      injection hf with hxw
      subst hxw
      refine ⟨[], rest, by simp, by simp, hp, ?_, ?_⟩
      · intro y hy
        simp only [List.nil_append] at hy
        intro hid
        exact hn.1 (hid ▸ List.mem_map_of_mem (fun z => z.id) hy)
      · intro o
        rw [List.map_cons]
        have hrest : rest.map (assignWorker x.id o) = rest := by
          refine map_fix_of_forall _ rest (fun y hy => assignWorker_other _ _ _ ?_)
          intro hid
          exact hn.1 (hid ▸ List.mem_map_of_mem (fun z => z.id) hy)
        rw [hrest]
        simp [assignWorker]
    · rw [List.find?_cons_of_neg rest (by simp [hp])] at hf
      obtain ⟨ws₁, ws₂, hsplit, hns, hpw, hid, hmap⟩ := ih hf hn.2
      have hwmem : w ∈ rest := List.mem_of_find?_eq_some hf
      have hxw : x.id ≠ w.id := by
        intro h
        exact hn.1 (h ▸ List.mem_map_of_mem (fun z => z.id) hwmem)
      refine ⟨x :: ws₁, ws₂, by rw [hsplit]; rfl, ?_, hpw, ?_, ?_⟩
      · intro y hy
        rcases List.mem_cons.mp hy with h | h
        · subst h; simpa using hp
        · exact hns y h
      · intro y hy
        rcases List.mem_cons.mp hy with h | h
        · subst h; exact hxw
        · exact hid y h
      · intro o
        rw [List.map_cons, assignWorker_other _ _ _ hxw, hmap o]
        rfl

/-- On a pool with unique primary keys, one successful allocation
removes exactly the head of the filtered free list: the free list of
the new pool is the tail of the free list of the old pool. -/
theorem filter_after_assign (ws : List DeliveryBoy) (w : DeliveryBoy) (o : String)
    (hf : ws.find? availPred = some w)
    (hn : (ws.map (fun x => x.id)).Nodup) :
    ws.filter availPred = w :: (ws.map (assignWorker w.id o)).filter availPred := by
  obtain ⟨ws₁, ws₂, hsplit, hns, hpw, _, hmap⟩ := find_assign_split ws w hf hn
  have h₁ : ws₁.filter availPred = [] := List.filter_eq_nil_iff.mpr (by simpa using hns)
  have h₂ : availPred { w with status := .occupied, current_order_id := some o } = false := by
    simp [availPred]
  rw [hmap o, hsplit, List.filter_append, List.filter_append, h₁,
    List.filter_cons_of_pos hpw, List.filter_cons_of_neg (by simp [h₂])]
  rfl

theorem find?_eq_none_of_all_false (ws : List DeliveryBoy)
    (h : ∀ w ∈ ws, availPred w = false) : ws.find? availPred = none :=
  List.find?_eq_none.mpr (fun x hx => by simp [h x hx])

theorem allocate_step_unavail (st : DBState) (cfg : Bool) (tn c o : String) (ok : Bool)
    (hc : c ≠ "") (hf : st.workers.find? availPred = none) :
    allocate_delivery st cfg tn (some c) o ok = (st, unavailResp) := by
  simp [allocate_delivery, find_available_worker, hc, hf]

theorem allocate_step_success (st : DBState) (cfg : Bool) (tn c o : String)
    (w : DeliveryBoy) (hc : c ≠ "") (hf : st.workers.find? availPred = some w) :
    allocate_delivery st cfg tn (some c) o true
      = (commitAllocation st w c o, connectResp w cfg tn) := by
  simp [allocate_delivery, find_available_worker, hc, hf]

theorem allocate_step_fail (st : DBState) (cfg : Bool) (tn c o : String)
    (w : DeliveryBoy) (hc : c ≠ "") (hf : st.workers.find? availPred = some w) :
    allocate_delivery st cfg tn (some c) o false = (st, errorResp) := by
  simp [allocate_delivery, find_available_worker, hc, hf]

theorem freeCount_after_assign (ws : List DeliveryBoy) (w : DeliveryBoy) (o : String)
    (hf : ws.find? availPred = some w)
    (hn : (ws.map (fun x => x.id)).Nodup) :
    freeCount (ws.map (assignWorker w.id o)) + 1 = freeCount ws := by
  unfold freeCount
  rw [List.countP_eq_length_filter, List.countP_eq_length_filter,
    filter_after_assign ws w o hf hn]
  rfl

theorem freeCount_eq_zero_of_find?_none (ws : List DeliveryBoy)
    (h : ws.find? availPred = none) : freeCount ws = 0 := by
  unfold freeCount
  rw [List.countP_eq_length_filter,
    List.filter_eq_nil_iff.mpr (List.find?_eq_none.mp h)]
  rfl

theorem connectResp_ne_unavail (w : DeliveryBoy) (cfg : Bool) (tn : String) :
    connectResp w cfg tn ≠ unavailResp := by
  cases cfg <;> simp [connectResp, unavailResp]

/-! ### Claim theorems -/

/-- C1: for every worker pool containing at least one free, active
worker, a successful `allocate_delivery` with a non-empty caller number
mutates exactly one worker to occupied (the pool splits around the one
mutated row, every other row is literally unchanged) and appends
exactly one call record that references that worker and has outcome
connected. -/
theorem allocate_assigns_exactly_one
    (st : DBState) (cfg : Bool) (tn c o : String)
    (hc : c ≠ "")
    (hids : (st.workers.map (fun w => w.id)).Nodup)
    (hfree : ∃ w ∈ st.workers, availPred w = true) :
    ∃ ws₁ w ws₂,
      st.workers = ws₁ ++ w :: ws₂ ∧
      w.status = .free ∧ w.is_active = true ∧
      (allocate_delivery st cfg tn (some c) o true).1.workers
        = ws₁ ++ { w with status := .occupied, current_order_id := some o } :: ws₂ ∧
      (allocate_delivery st cfg tn (some c) o true).1.call_logs
        = st.call_logs ++
          [{ delivery_boy_id := w.id, client_number := c, order_id := o,
             call_status := .connected, call_duration := 0 }] := by
  obtain ⟨w, hw⟩ := Option.isSome_iff_exists.mp (List.find?_isSome.mpr hfree)
  obtain ⟨ws₁, ws₂, hsplit, _, hpw, _, hmap⟩ := find_assign_split st.workers w hw hids
  have hstat : w.status = .free ∧ w.is_active = true := by
    have h := hpw
    simp only [availPred, Bool.and_eq_true, beq_iff_eq] at h
    exact h
  refine ⟨ws₁, w, ws₂, hsplit, hstat.1, hstat.2, ?_, ?_⟩
  · rw [allocate_step_success st cfg tn c o w hc hw]
    exact hmap o
  · rw [allocate_step_success st cfg tn c o w hc hw]
    rfl

/-- Witness for C1 on a concrete pool with one free and one occupied
worker. -/
theorem allocate_assigns_exactly_one_witness :
    ("+919876543210" ≠ "" ∧
     (poolMixed.workers.map (fun w => w.id)).Nodup ∧
     (∃ w ∈ poolMixed.workers, availPred w = true)) ∧
    (∃ ws₁ w ws₂,
      poolMixed.workers = ws₁ ++ w :: ws₂ ∧
      w.status = .free ∧ w.is_active = true ∧
      (allocate_delivery poolMixed true "+918000000000" (some "+919876543210")
        "ORD202510120930AB12" true).1.workers
        = ws₁ ++ { w with status := .occupied, current_order_id := some "ORD202510120930AB12" } :: ws₂ ∧
      (allocate_delivery poolMixed true "+918000000000" (some "+919876543210")
        "ORD202510120930AB12" true).1.call_logs
        = poolMixed.call_logs ++
          [{ delivery_boy_id := w.id, client_number := "+919876543210",
             order_id := "ORD202510120930AB12",
             call_status := .connected, call_duration := 0 }]) :=
  ⟨⟨by decide, by decide, by decide⟩,
   allocate_assigns_exactly_one poolMixed true "+918000000000" "+919876543210"
     "ORD202510120930AB12" (by decide) (by decide) (by decide)⟩

/-- C5: when no worker is free and active, `allocate_delivery` with a
non-empty caller number leaves the store untouched, appends no call
record, and returns the unavailability announcement. -/
theorem allocate_no_worker_no_mutation
    (st : DBState) (cfg : Bool) (tn c o : String) (ok : Bool)
    (hc : c ≠ "")
    (hnone : ∀ w ∈ st.workers, availPred w = false) :
    allocate_delivery st cfg tn (some c) o ok = (st, unavailResp) :=
  allocate_step_unavail st cfg tn c o ok hc (find?_eq_none_of_all_false st.workers hnone)

/-- Witness for C5 on a pool whose only worker is occupied. -/
theorem allocate_no_worker_no_mutation_witness :
    ("+919876543210" ≠ "" ∧ (∀ w ∈ poolBusy.workers, availPred w = false)) ∧
    allocate_delivery poolBusy true "+918000000000" (some "+919876543210")
      "ORD202510120930AB12" true = (poolBusy, unavailResp) :=
  ⟨⟨by decide, by decide⟩,
   allocate_no_worker_no_mutation poolBusy true "+918000000000" "+919876543210"
     "ORD202510120930AB12" true (by decide) (by decide)⟩

/-- C4 counterexample: on a missing caller number the handler answers
with the JSON body and HTTP status 400 — an HTTP error — not with a
success-status caller-facing spoken apology, refuting the claimed
response class at this concrete input. -/
theorem allocate_missing_caller_http_error :
    (allocate_delivery poolMixed true "+918000000000" none "ORD202510120930AB12" true).2.status
      = 400 ∧
    (allocate_delivery poolMixed true "+918000000000" none "ORD202510120930AB12" true).2.body
      = .json "Caller number not provided" ∧
    (allocate_delivery poolMixed true "+918000000000" none "ORD202510120930AB12" true).2.status
      ≠ 200 := by
  decide

/-- C4 amended: for every request with a missing or empty caller
number, `allocate_delivery` rejects it with the 400 JSON error
response, touches no store state, and mutates nothing (the early return
happens before the availability query). -/
theorem allocate_missing_caller_rejects
    (st : DBState) (cfg : Bool) (tn o : String) (ok : Bool) (caller : Option String)
    (h : caller = none ∨ caller = some "") :
    allocate_delivery st cfg tn caller o ok = (st, badCallerResp) := by
  rcases h with h | h <;> subst h <;> simp [allocate_delivery]

/-- Witness for the amended C4 at both rejecting inputs. -/
theorem allocate_missing_caller_rejects_witness :
    ((none : Option String) = none ∨ (none : Option String) = some "") ∧
    allocate_delivery poolMixed true "+918000000000" none "ORD202510120930AB12" true
      = (poolMixed, badCallerResp) :=
  ⟨Or.inl rfl,
   allocate_missing_caller_rejects poolMixed true "+918000000000" "ORD202510120930AB12"
     true none (Or.inl rfl)⟩

/-- C6: when the commit raises (the modelled persistence failure), the
handler answers through its except branch with the generic error
announcement as TwiML with HTTP status 200 — never an internal error
code or HTTP error at the telephony boundary — and persists nothing. -/
theorem allocate_exception_generic_response
    (st : DBState) (cfg : Bool) (tn c o : String)
    (hc : c ≠ "")
    (hfree : ∃ w ∈ st.workers, availPred w = true) :
    allocate_delivery st cfg tn (some c) o false = (st, errorResp) ∧
    errorResp.status = 200 ∧
    errorResp.body
      = .xml [.say "Sorry, there was an error processing your call. Please try again later."] := by
  obtain ⟨w, hw⟩ := Option.isSome_iff_exists.mp (List.find?_isSome.mpr hfree)
  exact ⟨allocate_step_fail st cfg tn c o w hc hw, rfl, rfl⟩

/-- Witness for C6 on a concrete pool with a free worker. -/
theorem allocate_exception_generic_response_witness :
    ("+919876543210" ≠ "" ∧ (∃ w ∈ poolMixed.workers, availPred w = true)) ∧
    allocate_delivery poolMixed true "+918000000000" (some "+919876543210")
      "ORD202510120930AB12" false = (poolMixed, errorResp) :=
  ⟨⟨by decide, by decide⟩,
   (allocate_exception_generic_response poolMixed true "+918000000000" "+919876543210"
     "ORD202510120930AB12" (by decide) (by decide)).1⟩

/-- C9: the availability read path is deterministic in the store state:
two calls of `find_available_worker` with no intervening mutation give
the same candidate, and any returned candidate satisfies the
availability filter. -/
theorem find_available_worker_deterministic (ws : List DeliveryBoy) :
    find_available_worker ws = find_available_worker ws ∧
    (find_available_worker ws).all availPred = true := by
  refine ⟨rfl, ?_⟩
  cases h : find_available_worker ws with
  | none => rfl
  | some w => simpa using List.find?_some h

/-- C10: after a successful allocation the freshly appended call record
and the mutated worker agree: the record order id equals the order id
now stored on the worker, and the record worker reference equals that
worker id. -/
theorem allocate_log_consistent_with_worker
    (st : DBState) (cfg : Bool) (tn c o : String)
    (hc : c ≠ "")
    (hids : (st.workers.map (fun w => w.id)).Nodup)
    (hfree : ∃ w ∈ st.workers, availPred w = true) :
    ∃ w log,
      (allocate_delivery st cfg tn (some c) o true).1.call_logs
        = st.call_logs ++ [log] ∧
      w ∈ (allocate_delivery st cfg tn (some c) o true).1.workers ∧
      w.status = .occupied ∧
      w.current_order_id = some o ∧
      log.order_id = o ∧
      log.delivery_boy_id = w.id := by
  obtain ⟨w, hw⟩ := Option.isSome_iff_exists.mp (List.find?_isSome.mpr hfree)
  obtain ⟨ws₁, ws₂, _, _, _, _, hmap⟩ := find_assign_split st.workers w hw hids
  refine ⟨{ w with status := .occupied, current_order_id := some o },
    { delivery_boy_id := w.id, client_number := c, order_id := o,
      call_status := .connected, call_duration := 0 }, ?_, ?_, rfl, rfl, rfl, rfl⟩
  · rw [allocate_step_success st cfg tn c o w hc hw]
    rfl
  · rw [allocate_step_success st cfg tn c o w hc hw]
    show _ ∈ st.workers.map (assignWorker w.id o)
    rw [hmap o]
    exact List.mem_append.mpr (Or.inr (List.mem_cons_self _ _))

/-- Witness for C10 on a concrete pool. -/
theorem allocate_log_consistent_with_worker_witness :
    ("+919876543210" ≠ "" ∧
     (poolMixed.workers.map (fun w => w.id)).Nodup ∧
     (∃ w ∈ poolMixed.workers, availPred w = true)) ∧
    (∃ w log,
      (allocate_delivery poolMixed true "+918000000000" (some "+919876543210")
        "ORD202510120930AB12" true).1.call_logs = poolMixed.call_logs ++ [log] ∧
      w ∈ (allocate_delivery poolMixed true "+918000000000" (some "+919876543210")
        "ORD202510120930AB12" true).1.workers ∧
      w.status = .occupied ∧
      w.current_order_id = some "ORD202510120930AB12" ∧
      log.order_id = "ORD202510120930AB12" ∧
      log.delivery_boy_id = w.id) :=
  ⟨⟨by decide, by decide, by decide⟩,
   allocate_log_consistent_with_worker poolMixed true "+918000000000" "+919876543210"
     "ORD202510120930AB12" (by decide) (by decide) (by decide)⟩

theorem allocRun_cons (st : DBState) (cfg : Bool) (tn caller o : String)
    (rest : List String) :
    allocRun st cfg tn caller (o :: rest) =
      ((allocRun (allocate_delivery st cfg tn (some caller) o true).1 cfg tn caller rest).1,
       (allocate_delivery st cfg tn (some caller) o true).2 ::
         (allocRun (allocate_delivery st cfg tn (some caller) o true).1 cfg tn caller rest).2) :=
  rfl

/-- Specification of the sequential allocation run: the run appends one
call record per successful allocation, the worker references of the
appended records are exactly the leading ids of the initial free list
(one per request until the free list is exhausted), every request gets
a response, and the requests beyond the initial free capacity get the
unavailability response. -/
theorem allocRun_spec (cfg : Bool) (tn caller : String) (hc : caller ≠ "") :
    ∀ (orders : List String) (st : DBState),
      (st.workers.map (fun w => w.id)).Nodup →
      ∃ L : List CallLog,
        (allocRun st cfg tn caller orders).1.call_logs = st.call_logs ++ L ∧
        L.map (fun l => l.delivery_boy_id)
          = ((st.workers.filter availPred).map (fun w => w.id)).take orders.length ∧
        (allocRun st cfg tn caller orders).2.length = orders.length ∧
        (allocRun st cfg tn caller orders).2.countP (fun r => decide (r = unavailResp))
          = orders.length - min orders.length (freeCount st.workers) := by
  intro orders
  induction orders with
  | nil =>
    intro st _
    exact ⟨[], by simp [allocRun], by simp [allocRun], rfl, by simp [allocRun]⟩
  | cons o rest ih =>
    intro st hn
    cases hf : st.workers.find? availPred with
    | none =>
      have hstep := allocate_step_unavail st cfg tn caller o true hc hf
      have hK : freeCount st.workers = 0 := freeCount_eq_zero_of_find?_none st.workers hf
      have hfil : st.workers.filter availPred = [] :=
        List.filter_eq_nil_iff.mpr (List.find?_eq_none.mp hf)
      obtain ⟨L, hL1, hL2, hL3, hL4⟩ := ih st hn
      rw [allocRun_cons, hstep]
      refine ⟨L, hL1, ?_, by simpa using hL3, ?_⟩
      · rw [hL2, hfil]; simp
      · simp only [List.countP_cons]
        rw [hL4, hK]
        simp only [Nat.min_zero, Nat.sub_zero, List.length_cons]
        simp [unavailResp]
    | some w =>
      have hstep := allocate_step_success st cfg tn caller o w hc hf
      have hn1 : (((commitAllocation st w caller o).workers).map (fun x => x.id)).Nodup := by
        show ((st.workers.map (assignWorker w.id o)).map (fun x => x.id)).Nodup
        rw [map_assign_ids]; exact hn
      have hfc : freeCount (commitAllocation st w caller o).workers + 1
          = freeCount st.workers := freeCount_after_assign st.workers w o hf hn
      have hfil : st.workers.filter availPred
          = w :: ((commitAllocation st w caller o).workers).filter availPred :=
        filter_after_assign st.workers w o hf hn
      obtain ⟨L, hL1, hL2, hL3, hL4⟩ := ih (commitAllocation st w caller o) hn1
      rw [allocRun_cons, hstep]
      refine ⟨{ delivery_boy_id := w.id, client_number := caller, order_id := o,
                call_status := .connected, call_duration := 0 } :: L, ?_, ?_, ?_, ?_⟩
      · rw [hL1]
        show (st.call_logs ++ _) ++ L = _
        rw [List.append_assoc]
        rfl
      · rw [List.map_cons, hL2, hfil, List.map_cons, List.length_cons,
          List.take_succ_cons]
      · simpa using hL3
      · simp only [List.countP_cons]
        rw [hL4, decide_eq_false (connectResp_ne_unavail w cfg tn), if_neg (by simp)]
        rw [← hfc, List.length_cons, Nat.succ_min_succ]
        omega

/-- C2 counterexample: with a pool of exactly two free workers and two
allocation requests whose selection queries both run before either
commit (the check-then-act interleaving the source permits), both
requests commit against the same worker: two call records reference
worker 1, only one worker leaves the free pool, and worker 3 is never
assigned — refuting the claimed min(N,K) distinct assignments under
concurrency. -/
theorem interleaved_double_assignment :
    freeCount poolTwoFree.workers = 2 ∧
    (interleavedAllocPair poolTwoFree "+919876543210" "ORD202510120930AB12"
      "ORD202510120930CD34").1.call_logs.length = 2 ∧
    ¬ (((interleavedAllocPair poolTwoFree "+919876543210" "ORD202510120930AB12"
        "ORD202510120930CD34").1.call_logs.map (fun l => l.delivery_boy_id)).Nodup) ∧
    freeCount (interleavedAllocPair poolTwoFree "+919876543210" "ORD202510120930AB12"
      "ORD202510120930CD34").1.workers = 1 := by
  decide

/-- C2 amended: under sequential (serialized) execution, N allocation
requests against a pool with K free, active workers produce exactly
min(N,K) successful assignments — one appended call record each,
referencing pairwise distinct workers (the leading K entries of the
free list) — and the remaining N − K requests receive the
unavailability response.  The concurrent form of the claim fails: the
unsynchronized check-then-act interleaving double-assigns one worker,
as the counterexample shows. -/
theorem allocate_sequential_min_assignments
    (st : DBState) (cfg : Bool) (tn caller : String) (orders : List String)
    (hc : caller ≠ "")
    (hids : (st.workers.map (fun w => w.id)).Nodup) :
    (allocRun st cfg tn caller orders).1.call_logs.length
      = st.call_logs.length + min orders.length (freeCount st.workers) ∧
    ((allocRun st cfg tn caller orders).1.call_logs.drop st.call_logs.length).map
        (fun l => l.delivery_boy_id)
      = ((st.workers.filter availPred).map (fun w => w.id)).take orders.length ∧
    (((allocRun st cfg tn caller orders).1.call_logs.drop st.call_logs.length).map
        (fun l => l.delivery_boy_id)).Nodup ∧
    (allocRun st cfg tn caller orders).2.length = orders.length ∧
    (allocRun st cfg tn caller orders).2.countP (fun r => decide (r = unavailResp))
      = orders.length - min orders.length (freeCount st.workers) := by
  obtain ⟨L, hL1, hL2, hL3, hL4⟩ := allocRun_spec cfg tn caller hc orders st hids
  have hdrop : (allocRun st cfg tn caller orders).1.call_logs.drop st.call_logs.length
      = L := by rw [hL1]; exact List.drop_left _ _
  have hfilterNodup : ((st.workers.filter availPred).map (fun w => w.id)).Nodup :=
    hids.sublist ((List.filter_sublist st.workers).map (fun w => w.id))
  have hLlen : L.length = min orders.length (freeCount st.workers) := by
    have := congrArg List.length hL2
    rw [List.length_map, List.length_take, List.length_map] at this
    rw [this]
    unfold freeCount
    rw [List.countP_eq_length_filter]
  refine ⟨?_, ?_, ?_, hL3, hL4⟩
  · rw [hL1, List.length_append, hLlen]
  · rw [hdrop]; exact hL2
  · rw [hdrop, hL2]
    exact hfilterNodup.sublist (List.take_sublist _ _)

/-- Witness for the amended C2: three sequential requests against a
pool with two free workers yield two records referencing distinct
workers and one unavailability response. -/
theorem allocate_sequential_min_assignments_witness :
    ("+919876543210" ≠ "" ∧ (poolTwoFree.workers.map (fun w => w.id)).Nodup) ∧
    (allocRun poolTwoFree true "+918000000000" "+919876543210"
        ["ORD202510120930AB12", "ORD202510120930CD34", "ORD202510120930EF56"]).1.call_logs.length
      = poolTwoFree.call_logs.length +
        min 3 (freeCount poolTwoFree.workers) ∧
    (((allocRun poolTwoFree true "+918000000000" "+919876543210"
        ["ORD202510120930AB12", "ORD202510120930CD34", "ORD202510120930EF56"]).1.call_logs.drop
          poolTwoFree.call_logs.length).map (fun l => l.delivery_boy_id)).Nodup ∧
    (allocRun poolTwoFree true "+918000000000" "+919876543210"
        ["ORD202510120930AB12", "ORD202510120930CD34", "ORD202510120930EF56"]).2.countP
        (fun r => decide (r = unavailResp))
      = 3 - min 3 (freeCount poolTwoFree.workers) := by
  have h := allocate_sequential_min_assignments poolTwoFree true "+918000000000"
    "+919876543210" ["ORD202510120930AB12", "ORD202510120930CD34", "ORD202510120930EF56"]
    (by decide) (by decide)
  exact ⟨⟨by decide, by decide⟩, h.1, h.2.2.1, h.2.2.2.2⟩

/-- C3 counterexample: starting from a pool satisfying the claimed
invariant, the explicit status update to occupied succeeds yet leaves
the (previously free) worker occupied with a null assignment
identifier, so the mutation does not preserve the invariant. -/
theorem update_status_occupied_breaks_invariant :
    invariantOn poolTwoFree.workers ∧
    (update_status poolTwoFree.workers 1 "occupied").2 = .ok ∧
    ¬ invariantOn (update_status poolTwoFree.workers 1 "occupied").1 := by
  decide

/-- C3 amended: allocation preserves the worker invariant on every
path, the explicit status update to free preserves it, and the explicit
status update to occupied preserves it only under the extra premise
that the targeted worker is already occupied (the endpoint never sets
an assignment identifier, so updating a free worker to occupied
violates the invariant, as the counterexample shows). -/
theorem mutations_preserve_invariant :
    (∀ (st : DBState) (cfg : Bool) (tn : String) (caller : Option String) (o : String)
       (ok : Bool),
      invariantOn st.workers →
      invariantOn (allocate_delivery st cfg tn caller o ok).1.workers) ∧
    (∀ (ws : List DeliveryBoy) (bid : Nat),
      invariantOn ws → invariantOn (update_status ws bid "free").1) ∧
    (∀ (ws : List DeliveryBoy) (bid : Nat),
      invariantOn ws → (∀ w ∈ ws, w.id = bid → w.status = .occupied) →
      invariantOn (update_status ws bid "occupied").1) := by
  refine ⟨?_, ?_, ?_⟩
  · intro st cfg tn caller o ok hinv
    match caller with
    | none => exact hinv
    | some c =>
      by_cases hc : c = ""
      · subst hc; simpa [allocate_delivery] using hinv
      · cases hf : st.workers.find? availPred with
        | none => rw [allocate_step_unavail st cfg tn c o ok hc hf]; exact hinv
        | some w =>
          cases ok with
          | false => rw [allocate_step_fail st cfg tn c o w hc hf]; exact hinv
          | true =>
            rw [allocate_step_success st cfg tn c o w hc hf]
            intro x hx
            obtain ⟨y, hy, rfl⟩ := List.mem_map.mp hx
            unfold assignWorker
            split
            · exact ⟨fun _ => by simp, fun h => by simp at h⟩
            · exact hinv y hy
  · intro ws bid hinv
    unfold update_status
    rw [if_pos (Or.inl rfl)]
    cases hf : ws.find? (fun w => w.id == bid) with
    | none => exact hinv
    | some w₀ =>
      intro x hx
      obtain ⟨y, hy, rfl⟩ := List.mem_map.mp hx
      split
      · exact ⟨fun h => by simp [applyStatusUpdate] at h, fun _ => by simp [applyStatusUpdate]⟩
      · exact hinv y hy
  · intro ws bid hinv hocc
    unfold update_status
    rw [if_pos (Or.inr rfl)]
    cases hf : ws.find? (fun w => w.id == bid) with
    | none => exact hinv
    | some w₀ =>
      intro x hx
      obtain ⟨y, hy, rfl⟩ := List.mem_map.mp hx
      split
      · case isTrue h =>
          have hid : y.id = bid := by simpa using h
          have hys : y.status = .occupied := hocc y hy hid
          have hord : y.current_order_id ≠ none := (hinv y hy).1 hys
          refine ⟨fun _ => ?_, fun h => ?_⟩
          · simpa [applyStatusUpdate] using hord
          · simp [applyStatusUpdate] at h
      · exact hinv y hy

/-- Witness for the amended C3 at concrete pools and updates. -/
theorem mutations_preserve_invariant_witness :
    (invariantOn poolMixed.workers ∧
     (∀ w ∈ poolMixed.workers, w.id = 2 → w.status = .occupied)) ∧
    invariantOn (allocate_delivery poolMixed true "+918000000000" (some "+919876543210")
      "ORD202510120930AB12" true).1.workers ∧
    invariantOn (update_status poolMixed.workers 2 "free").1 ∧
    invariantOn (update_status poolMixed.workers 2 "occupied").1 :=
  ⟨⟨by decide, by decide⟩,
   mutations_preserve_invariant.1 poolMixed true "+918000000000" (some "+919876543210")
     "ORD202510120930AB12" true (by decide),
   mutations_preserve_invariant.2.1 poolMixed.workers 2 (by decide),
   mutations_preserve_invariant.2.2 poolMixed.workers 2 (by decide) (by decide)⟩

/-- C7 counterexample: ten thousand identifiers minted in the same
minute are not pairwise distinct for every possible draw of the random
suffix — a repeated UUID draw repeats the identifier. -/
theorem order_id_duplicate_draws :
    ¬ (((List.replicate 10000 "f47ac10b-58cc-4372-a567-0e02b2c3d479").map
        (generate_order_id { year := 2025, month := 10, day := 12, hour := 9,
                             minute := 30, second := 0 })).Nodup) := by
  rw [List.map_replicate, List.nodup_replicate]
  omega

/-- C7 amended: identifiers minted within one minute are pairwise
distinct exactly when the uppercased four-character random suffixes of
the drawn UUID strings are pairwise distinct; distinctness therefore
depends on the draws and is not guaranteed universally. -/
theorem order_id_nodup_iff_suffixes_nodup (t : UtcTime) (us : List String) :
    (us.map (generate_order_id t)).Nodup ↔
    (us.map (fun u => pyUpper (pySlice4 u))).Nodup := by
  have hmap : us.map (generate_order_id t)
      = (us.map (fun u => pyUpper (pySlice4 u))).map
          (fun s => "ORD" ++ strftimeYmdHM t ++ s) := by
    rw [List.map_map]; rfl
  have hinj : Function.Injective (fun s => "ORD" ++ strftimeYmdHM t ++ s) := by
    intro s₁ s₂ h
    apply String.ext
    have hd := congrArg String.data h
    simp only [String.data_append] at hd
    exact List.append_cancel_left hd
  rw [hmap]
  exact List.nodup_map_iff hinj

/-- C8: every identifier minted at allocation time is the fixed tag ORD
followed by the minute-resolution UTC timestamp followed by a
four-character alphanumeric suffix, and the identifier depends on the
clock only through the minute (two instants agreeing up to the minute
give the same identifier for the same draw). -/
theorem order_id_format (t : UtcTime) (u : String)
    (hlen : 4 ≤ u.data.length)
    (hhex : ∀ c ∈ u.data.take 4, c ∈ hexLowerChars) :
    ∃ s : String,
      generate_order_id t u = "ORD" ++ strftimeYmdHM t ++ s ∧
      s.data.length = 4 ∧
      (∀ c ∈ s.data, c.isAlphanum = true) ∧
      (∀ t₂ : UtcTime, t₂.year = t.year → t₂.month = t.month → t₂.day = t.day →
        t₂.hour = t.hour → t₂.minute = t.minute →
        generate_order_id t₂ u = "ORD" ++ strftimeYmdHM t ++ s) := by
  refine ⟨pyUpper (pySlice4 u), rfl, ?_, ?_, ?_⟩
  · show ((u.data.take 4).map Char.toUpper).length = 4
    rw [List.length_map, List.length_take]
    exact Nat.min_eq_left hlen
  · intro c hc
    obtain ⟨c₀, hc₀, rfl⟩ := List.mem_map.mp hc
    have h16 : ∀ d ∈ hexLowerChars, (Char.toUpper d).isAlphanum = true := by decide
    exact h16 c₀ (hhex c₀ hc₀)
  · intro t₂ hy hm hd hh hmin
    unfold generate_order_id strftimeYmdHM
    rw [hy, hm, hd, hh, hmin]

/-- Witness for C8 at a concrete minute and a concrete UUID string. -/
theorem order_id_format_witness :
    (4 ≤ ("f47ac10b-58cc-4372-a567-0e02b2c3d479" : String).data.length ∧
     (∀ c ∈ ("f47ac10b-58cc-4372-a567-0e02b2c3d479" : String).data.take 4,
        c ∈ hexLowerChars)) ∧
    (∃ s : String,
      generate_order_id { year := 2025, month := 10, day := 12, hour := 9,
                          minute := 30, second := 45 }
          "f47ac10b-58cc-4372-a567-0e02b2c3d479"
        = "ORD" ++ strftimeYmdHM { year := 2025, month := 10, day := 12, hour := 9,
                                   minute := 30, second := 45 } ++ s ∧
      s.data.length = 4 ∧
      (∀ c ∈ s.data, c.isAlphanum = true) ∧
      (∀ t₂ : UtcTime, t₂.year = 2025 → t₂.month = 10 → t₂.day = 12 →
        t₂.hour = 9 → t₂.minute = 30 →
        generate_order_id t₂ "f47ac10b-58cc-4372-a567-0e02b2c3d479"
          = "ORD" ++ strftimeYmdHM { year := 2025, month := 10, day := 12, hour := 9,
                                     minute := 30, second := 45 } ++ s)) :=
  ⟨⟨by decide, by decide⟩,
   order_id_format { year := 2025, month := 10, day := 12, hour := 9,
                     minute := 30, second := 45 }
     "f47ac10b-58cc-4372-a567-0e02b2c3d479" (by decide) (by decide)⟩

end DeliveryServer
